import Mathlib

/-!
# Package `method`: dispatching http requests on the request method

A verification development for `method.go` and the examples of
`method_test.go`.

Handlers are first-class values in the Go source (interface values, closures
and a map type with a method).  They are embedded as a first-order datatype,
one constructor per way the source can build a handler, and `Handler.ServeHTTP`
gives what the body of each handler does when it is served.  The three
dispatching bodies of the package (`If`, `Switch.ServeHTTP`, and through `If`
the helpers `Get` and `Post`) each consist of a single call
`h.ServeHTTP(w, r)`; that call is the `Step.invoke h w r` they return.

The package level variable `Invalid` is mutable, so every function of the
source that reads it takes the current `Globals`.
-/

namespace Method

/-! ## Data model -/

/-- Request stands for `*http.Request`: the method verb the package looks at,
and further fields it never reads. -/
structure Request where
  Method : String
  URL : String
  Header : List (String × String)
  Body : String
  deriving DecidableEq, Repr

/-- ResponseWriter stands for `http.ResponseWriter`, as a recorder of what has
been written: whether the status line went out, the status, and the body.
Header fields are not modelled. -/
structure ResponseWriter where
  wroteHeader : Bool
  status : Nat
  body : String
  deriving DecidableEq, Repr

/-- Handler stands for a value of the interface type `http.Handler`.
* `nil` is the nil interface value;
* `app name` is a handler of the embedding application, about which the
  package knows nothing (`HandleGet`, `CustomInvalid`, ... in the examples);
* `invalidFunc` is the function literal of `method.go:59-61`, the initial
  value of `Invalid`;
* `ifFunc method Then Else` is the closure of `method.go:68-74` with the three
  variables it captures;
* `switch s` is a value of the map type `Switch`, its entries as a list. -/
inductive Handler where
  | nil : Handler
  | app (name : String) : Handler
  | invalidFunc : Handler
  | ifFunc (method : String) (Then Else : Handler) : Handler
  | switch (s : List (String × Handler)) : Handler

instance : Inhabited Handler := ⟨Handler.nil⟩

/-- Switch is `type Switch map[string]http.Handler` (`method.go:93`): the
entries of the map.  A Go map holds one entry a key; the list is searched from
the front. -/
abbrev Switch := List (String × Handler)

/-- Globals holds the package level variables: `var Invalid http.Handler`
(`method.go:59`). -/
structure Globals where
  Invalid : Handler

/-- The state of the package after initialisation: `Invalid` holds the function
literal of `method.go:59-61`. -/
def Globals.initial : Globals := { Invalid := Handler.invalidFunc }

/-- The assignment `Invalid = h` made by an application. -/
def Globals.setInvalid (_g : Globals) (h : Handler) : Globals := { Invalid := h }

/-- Step is what serving one handler does, up to its first call of another
handler.
* `invoke h w r`: the body is the call `h.ServeHTTP(w, r)` and nothing else;
* `reply w`: the body wrote to the response writer, leaving it as `w`;
* `appCode name w r`: control is in the application handler `name`, with these
  arguments;
* `nilDeref`: a method call on the nil interface value, a run-time panic. -/
inductive Step where
  | invoke (h : Handler) (w : ResponseWriter) (r : Request) : Step
  | reply (w : ResponseWriter) : Step
  | appCode (name : String) (w : ResponseWriter) (r : Request) : Step
  | nilDeref : Step

/-! ## The standard library calls made by the package -/

/-- WriteHeader of `http.ResponseWriter`: sends the status line, once; a later
call changes nothing. -/
def ResponseWriter.WriteHeader (w : ResponseWriter) (code : Nat) : ResponseWriter :=
  if w.wroteHeader then w else { w with wroteHeader := true, status := code }

/-- Write of `http.ResponseWriter`: sends status 200 first when no status has
been sent, then appends to the body. -/
def ResponseWriter.Write (w : ResponseWriter) (data : String) : ResponseWriter :=
  let w1 := if w.wroteHeader then w else w.WriteHeader 200
  { w1 with body := w1.body ++ data }

/-- The function `http.Error` of the Go standard library (`net/http`, not part
of this repository): `w.WriteHeader(code)` followed by `fmt.Fprintln(w, error)`,
which writes the message and a newline. -/
def httpError (w : ResponseWriter) (error : String) (code : Nat) : ResponseWriter :=
  (w.WriteHeader code).Write (error ++ "\n")

/-! ## method.go -/

/-- The map index expression `h, ok := s[key]`: the handler stored under `key`
and `true`, or the zero value `nil` and `false` when the map has no such key. -/
def Switch.index : Switch → String → Handler × Bool
  | [], _ => (Handler.nil, false)
  | (k, h) :: rest, key => if k = key then (h, true) else Switch.index rest key

/-- The keys of the map. -/
def Switch.keys (s : Switch) : List String := s.map Prod.fst

/-- Switch.ServeHTTP (`method.go:95-104`). -/
def Switch.ServeHTTP (g : Globals) (s : Switch) (w : ResponseWriter) (r : Request) : Step :=
  let (h, ok) := s.index r.Method
  let h :=
    if !ok then
      let (h, ok) := s.index "*"
      if !ok then g.Invalid else h
    else h
  Step.invoke h w r

/-- The method `ServeHTTP` of each kind of handler value.  For `invalidFunc` it
is the body `http.Error(w, "Invalid method", 405)` of `method.go:60`, for
`ifFunc` the body of the closure of `method.go:69-73`, for `switch` the method
`Switch.ServeHTTP`. -/
def Handler.ServeHTTP (g : Globals) (h : Handler) (w : ResponseWriter) (r : Request) : Step :=
  match h with
  | Handler.nil => Step.nilDeref
  | Handler.app name => Step.appCode name w r
  | Handler.invalidFunc => Step.reply (httpError w "Invalid method" 405)
  | Handler.ifFunc method Then Else =>
    if r.Method = method then Step.invoke Then w r else Step.invoke Else w r
  | Handler.switch s => Switch.ServeHTTP g s w r

/-- If (`method.go:67-75`): returns the closure over `method`, `Then`, `Else`. -/
def If (method : String) (Then Else : Handler) : Handler :=
  Handler.ifFunc method Then Else

/-- Get (`method.go:78-80`): `If("GET", h, Invalid)`; the argument `Invalid` is
evaluated when `Get` is called. -/
def Get (g : Globals) (h : Handler) : Handler := If "GET" h g.Invalid

/-- Post (`method.go:83-85`): `If("POST", h, Invalid)`; the argument `Invalid`
is evaluated when `Post` is called. -/
def Post (g : Globals) (h : Handler) : Handler := If "POST" h g.Invalid

/-! ## method_test.go: the inlined forms of the examples -/

/-- The function literal of `ExampleIf` (`method_test.go:13-19`), registered
under "/patch-inlined"; `HandlePatch` and `CustomInvalid` are variables of the
test package. -/
def ExampleIf_inlined (HandlePatch CustomInvalid : Handler)
    (w : ResponseWriter) (r : Request) : Step :=
  if r.Method = "PATCH" then Step.invoke HandlePatch w r
  else Step.invoke CustomInvalid w r

/-- The function literal of `ExampleGet` (`method_test.go:29-35`), registered
under "/get-inlined": its body reads `Invalid` when it runs. -/
def ExampleGet_inlined (HandleGet : Handler) (g : Globals)
    (w : ResponseWriter) (r : Request) : Step :=
  if r.Method = "GET" then Step.invoke HandleGet w r
  else Step.invoke g.Invalid w r

/-- The function literal of `ExamplePost` (`method_test.go:45-51`), registered
under "/post-inlined": its body reads `Invalid` when it runs. -/
def ExamplePost_inlined (HandlePost : Handler) (g : Globals)
    (w : ResponseWriter) (r : Request) : Step :=
  if r.Method = "POST" then Step.invoke HandlePost w r
  else Step.invoke g.Invalid w r

/-- The map literal of `ExampleSwitch` (`method_test.go:55-63`). -/
def ExampleSwitch_table (HandleGet HandlePost HandlePatch CustomInvalid : Handler) : Switch :=
  [("GET", HandleGet), ("POST", HandlePost), ("PATCH", HandlePatch), ("*", CustomInvalid)]

/-- The function literal of `ExampleSwitch` (`method_test.go:66-77`), a switch
statement on `r.Method` with a default case. -/
def ExampleSwitch_inlined (HandleGet HandlePost HandlePatch CustomInvalid : Handler)
    (w : ResponseWriter) (r : Request) : Step :=
  if r.Method = "GET" then Step.invoke HandleGet w r
  else if r.Method = "POST" then Step.invoke HandlePost w r
  else if r.Method = "PATCH" then Step.invoke HandlePatch w r
  else Step.invoke CustomInvalid w r

/-! ## Notions used to state the properties -/

/-- The response writer a server hands to the first handler of a request:
nothing has been written to it. -/
def ResponseWriter.fresh : ResponseWriter := { wroteHeader := false, status := 0, body := "" }

/-- Case folding of a method string: every ASCII upper case letter is replaced
by its lower case letter. -/
def foldCase (s : String) : List Char := s.data.map Char.toLower

/-- The map assignment `s[key] = h` of Go, on a map that is not nil (on a nil
map the assignment panics): the entry under `key` is replaced, or a new entry is
added when the map has no such key. -/
def Switch.store : Switch → String → Handler → Switch
  | [], key, h => [(key, h)]
  | (k, v) :: rest, key, h =>
    if k = key then (key, h) :: rest else (k, v) :: Switch.store rest key h

/-- The built-in `delete(s, key)` of Go: the map without an entry under
`key`. -/
def Switch.delete (s : Switch) (key : String) : Switch :=
  s.filter (fun e => decide (e.1 ≠ key))

/-- The handler a step calls, when the step is a call. -/
def Step.callee : Step → Option Handler
  | Step.invoke h _ _ => some h
  | _ => none

/-- Outcome is how serving a request ends: the handler returned, leaving the
response writer and the package variables in some state, or it panicked. -/
inductive Outcome where
  | done (w : ResponseWriter) (g : Globals) : Outcome
  | panicked : Outcome

/-- AppEnv gives, for each handler of the application, what running it on a
response writer and a request does, from the current package variables. -/
abbrev AppEnv := String → ResponseWriter → Request → Globals → Outcome

/-- Serving a request to the end: the calls `h.ServeHTTP(w, r)` made by the
handlers of the package are followed, one unit of fuel a call, until a handler
replies, application code takes over, or a nil handler is called.  The result
is `none` when the fuel runs out first. -/
def Handler.run (env : AppEnv) : Nat → Globals → Handler → ResponseWriter → Request →
    Option Outcome
  | 0, _, _, _, _ => none
  | n + 1, g, h, w, r =>
    match h.ServeHTTP g w r with
    | Step.invoke h1 w1 r1 => Handler.run env n g h1 w1 r1
    | Step.reply w1 => some (Outcome.done w1 g)
    | Step.appCode name w1 r1 => some (env name w1 r1 g)
    | Step.nilDeref => some Outcome.panicked

/-! ## The map index expression -/

theorem Switch.index_of_not_mem (s : Switch) (key : String) (h : key ∉ s.keys) :
    s.index key = (Handler.nil, false) := by
  induction s with
  | nil => rfl
  | cons e rest ih =>
    obtain ⟨k, v⟩ := e
    simp only [Switch.keys, List.map_cons, List.mem_cons, not_or] at h
    have hk : ¬ k = key := fun hk => h.1 hk.symm
    simp only [Switch.index, hk, if_false]
    exact ih h.2

theorem Switch.index_snd_of_mem (s : Switch) (key : String) (h : key ∈ s.keys) :
    (s.index key).2 = true := by
  induction s with
  | nil => simp [Switch.keys] at h
  | cons e rest ih =>
    obtain ⟨k, v⟩ := e
    by_cases hk : k = key
    · simp [Switch.index, hk]
    · simp only [Switch.keys, List.map_cons, List.mem_cons] at h
      rcases h with h | h
      · exact absurd h.symm hk
      · simp only [Switch.index, hk, if_false]
        exact ih h

theorem Switch.index_snd_iff (s : Switch) (key : String) :
    (s.index key).2 = true ↔ key ∈ s.keys := by
  constructor
  · intro h
    by_contra hn
    rw [Switch.index_of_not_mem s key hn] at h
    exact Bool.false_ne_true h
  · exact Switch.index_snd_of_mem s key

theorem Switch.index_mem (s : Switch) (key : String) (h : key ∈ s.keys) :
    (key, (s.index key).1) ∈ s := by
  induction s with
  | nil => simp [Switch.keys] at h
  | cons e rest ih =>
    obtain ⟨k, v⟩ := e
    by_cases hk : k = key
    · simp [Switch.index, hk]
    · simp only [Switch.keys, List.map_cons, List.mem_cons] at h
      rcases h with h | h
      · exact absurd h.symm hk
      · simp only [Switch.index, hk, if_false]
        exact List.mem_cons_of_mem _ (ih h)

theorem Switch.index_of_mem_nodup (s : Switch) (key : String) (v : Handler)
    (hnd : s.keys.Nodup) (h : (key, v) ∈ s) : s.index key = (v, true) := by
  induction s with
  | nil => simp at h
  | cons e rest ih =>
    obtain ⟨k, v1⟩ := e
    simp only [Switch.keys, List.map_cons, List.nodup_cons] at hnd
    simp only [List.mem_cons, Prod.mk.injEq] at h
    rcases h with h | h
    · simp [Switch.index, h.1, h.2]
    · have hk : ¬ k = key := by
        intro hk
        apply hnd.1
        rw [hk]
        exact List.mem_map_of_mem Prod.fst h
      simp only [Switch.index, hk, if_false]
      exact ih hnd.2 h

theorem Switch.index_perm (s t : Switch) (key : String)
    (hnd : s.keys.Nodup) (hp : s.Perm t) : s.index key = t.index key := by
  by_cases hk : key ∈ s.keys
  · have hm := Switch.index_mem s key hk
    have hs := Switch.index_of_mem_nodup s key _ hnd hm
    have ht := Switch.index_of_mem_nodup t key _
      ((hp.map Prod.fst).nodup_iff.mp hnd) (hp.subset hm)
    rw [ht]
    exact hs
  · have hk2 : key ∉ t.keys := fun h => hk ((hp.map Prod.fst).symm.subset h)
    rw [Switch.index_of_not_mem s key hk, Switch.index_of_not_mem t key hk2]

/-! ## The three branches of `Switch.ServeHTTP` -/

theorem Switch.serve_exact (g : Globals) (s : Switch) (w : ResponseWriter) (r : Request)
    (h : r.Method ∈ s.keys) :
    Switch.ServeHTTP g s w r = Step.invoke (s.index r.Method).1 w r := by
  have hok := Switch.index_snd_of_mem s r.Method h
  simp [Switch.ServeHTTP, hok]

theorem Switch.serve_wildcard (g : Globals) (s : Switch) (w : ResponseWriter) (r : Request)
    (h : r.Method ∉ s.keys) (hstar : "*" ∈ s.keys) :
    Switch.ServeHTTP g s w r = Step.invoke (s.index "*").1 w r := by
  have hok := Switch.index_snd_of_mem s "*" hstar
  simp [Switch.ServeHTTP, Switch.index_of_not_mem s r.Method h, hok]

theorem Switch.serve_invalid (g : Globals) (s : Switch) (w : ResponseWriter) (r : Request)
    (h : r.Method ∉ s.keys) (hstar : "*" ∉ s.keys) :
    Switch.ServeHTTP g s w r = Step.invoke g.Invalid w r := by
  simp [Switch.ServeHTTP, Switch.index_of_not_mem s r.Method h,
    Switch.index_of_not_mem s "*" hstar]

/-! ## C1: binary dispatch -/

/-- C1: the handler returned by `If(M, Then, Else)` calls `Then.ServeHTTP(w, r)`
when `r.Method` equals `M` and `Else.ServeHTTP(w, r)` otherwise, whatever the
value of `Invalid`; and `If("PATCH", HandlePatch, CustomInvalid)` does on every
request what the inlined handler of `ExampleIf` does. -/
theorem If_dispatch (g : Globals) (M : String) (Then Else : Handler)
    (w : ResponseWriter) (r : Request) :
    (r.Method = M → (If M Then Else).ServeHTTP g w r = Step.invoke Then w r) ∧
    (r.Method ≠ M → (If M Then Else).ServeHTTP g w r = Step.invoke Else w r) ∧
    (If "PATCH" Then Else).ServeHTTP g w r = ExampleIf_inlined Then Else w r := by
  refine ⟨fun h => ?_, fun h => ?_, rfl⟩
  · simp [If, Handler.ServeHTTP, h]
  · simp [If, Handler.ServeHTTP, h]

/-- C1 at concrete inputs: `If("PATCH", patchH, customInvalid)` on a PATCH
request and on a DELETE request. -/
theorem If_dispatch_witness :
    (If "PATCH" (Handler.app "patchH") (Handler.app "customInvalid")).ServeHTTP
        Globals.initial ResponseWriter.fresh ⟨"PATCH", "/patch", [], ""⟩
      = Step.invoke (Handler.app "patchH") ResponseWriter.fresh ⟨"PATCH", "/patch", [], ""⟩ ∧
    (If "PATCH" (Handler.app "patchH") (Handler.app "customInvalid")).ServeHTTP
        Globals.initial ResponseWriter.fresh ⟨"DELETE", "/patch", [], ""⟩
      = Step.invoke (Handler.app "customInvalid") ResponseWriter.fresh
          ⟨"DELETE", "/patch", [], ""⟩ :=
  ⟨(If_dispatch Globals.initial "PATCH" (Handler.app "patchH") (Handler.app "customInvalid")
      ResponseWriter.fresh ⟨"PATCH", "/patch", [], ""⟩).1 rfl,
   (If_dispatch Globals.initial "PATCH" (Handler.app "patchH") (Handler.app "customInvalid")
      ResponseWriter.fresh ⟨"DELETE", "/patch", [], ""⟩).2.1 (by decide)⟩

/-! ## C2: table dispatch -/

/-- C2: `T.ServeHTTP(w, r)` calls the entry `T[r.Method]` when `r.Method` is a
key of `T`; otherwise the entry `T["*"]` when "*" is a key; otherwise the
handler held by the global `Invalid`.  In a table with one entry a key, an
entry `(r.Method, h)` is the one called, whether or not "*" is a key too. -/
theorem Switch_dispatch (g : Globals) (T : Switch) (w : ResponseWriter) (r : Request) :
    (r.Method ∈ T.keys → Switch.ServeHTTP g T w r = Step.invoke (T.index r.Method).1 w r) ∧
    (r.Method ∉ T.keys → "*" ∈ T.keys →
      Switch.ServeHTTP g T w r = Step.invoke (T.index "*").1 w r) ∧
    (r.Method ∉ T.keys → "*" ∉ T.keys →
      Switch.ServeHTTP g T w r = Step.invoke g.Invalid w r) ∧
    (∀ h, T.keys.Nodup → (r.Method, h) ∈ T → Switch.ServeHTTP g T w r = Step.invoke h w r) := by
  refine ⟨Switch.serve_exact g T w r, Switch.serve_wildcard g T w r,
    Switch.serve_invalid g T w r, fun h hnd hm => ?_⟩
  have hk : r.Method ∈ T.keys := List.mem_map_of_mem Prod.fst hm
  rw [Switch.serve_exact g T w r hk, Switch.index_of_mem_nodup T r.Method h hnd hm]

/-- C2 at concrete inputs: `Switch{"GET": g, "POST": p}` on DELETE calls
`Invalid`, `Switch{"GET": g, "*": other}` on DELETE calls `other` and on GET
calls `g`. -/
theorem Switch_dispatch_witness :
    Switch.ServeHTTP Globals.initial [("GET", Handler.app "g"), ("POST", Handler.app "p")]
        ResponseWriter.fresh ⟨"DELETE", "/", [], ""⟩
      = Step.invoke Handler.invalidFunc ResponseWriter.fresh ⟨"DELETE", "/", [], ""⟩ ∧
    Switch.ServeHTTP Globals.initial [("GET", Handler.app "g"), ("*", Handler.app "other")]
        ResponseWriter.fresh ⟨"DELETE", "/", [], ""⟩
      = Step.invoke (Handler.app "other") ResponseWriter.fresh ⟨"DELETE", "/", [], ""⟩ ∧
    Switch.ServeHTTP Globals.initial [("*", Handler.app "other"), ("GET", Handler.app "g")]
        ResponseWriter.fresh ⟨"GET", "/", [], ""⟩
      = Step.invoke (Handler.app "g") ResponseWriter.fresh ⟨"GET", "/", [], ""⟩ :=
  ⟨(Switch_dispatch Globals.initial [("GET", Handler.app "g"), ("POST", Handler.app "p")]
      ResponseWriter.fresh ⟨"DELETE", "/", [], ""⟩).2.2.1 (by decide) (by decide),
   (Switch_dispatch Globals.initial [("GET", Handler.app "g"), ("*", Handler.app "other")]
      ResponseWriter.fresh ⟨"DELETE", "/", [], ""⟩).2.1 (by decide) (by decide),
   (Switch_dispatch Globals.initial [("*", Handler.app "other"), ("GET", Handler.app "g")]
      ResponseWriter.fresh ⟨"GET", "/", [], ""⟩).2.2.2 (Handler.app "g") (by decide)
      (by simp)⟩

/-! ## C3: `Get` and `Post` -/

/-- C3: `Get(h)` is the handler `If("GET", h, Invalid)` and `Post(h)` the
handler `If("POST", h, Invalid)`, with `Invalid` read when the helper is
called; served under any later state they make the same call on the same
arguments, and on a request with method "GET" (resp. "POST") that call is
`h.ServeHTTP(w, r)`. -/
theorem Get_Post_eq_If (g g1 : Globals) (h : Handler) (w : ResponseWriter) (r : Request) :
    Get g h = If "GET" h g.Invalid ∧
    Post g h = If "POST" h g.Invalid ∧
    (Get g h).ServeHTTP g1 w r = (If "GET" h g.Invalid).ServeHTTP g1 w r ∧
    (Post g h).ServeHTTP g1 w r = (If "POST" h g.Invalid).ServeHTTP g1 w r ∧
    (r.Method = "GET" → (Get g h).ServeHTTP g1 w r = Step.invoke h w r) ∧
    (r.Method = "POST" → (Post g h).ServeHTTP g1 w r = Step.invoke h w r) := by
  refine ⟨rfl, rfl, rfl, rfl, fun hm => ?_, fun hm => ?_⟩
  · simp [Get, If, Handler.ServeHTTP, hm]
  · simp [Post, If, Handler.ServeHTTP, hm]

/-- C3 at concrete inputs: `Get(h)` on a GET request and `Post(h)` on a POST
request call `h`. -/
theorem Get_Post_eq_If_witness :
    (Get Globals.initial (Handler.app "h")).ServeHTTP Globals.initial
        ResponseWriter.fresh ⟨"GET", "/get", [], ""⟩
      = Step.invoke (Handler.app "h") ResponseWriter.fresh ⟨"GET", "/get", [], ""⟩ ∧
    (Post Globals.initial (Handler.app "h")).ServeHTTP Globals.initial
        ResponseWriter.fresh ⟨"POST", "/post", [], "a=1"⟩
      = Step.invoke (Handler.app "h") ResponseWriter.fresh ⟨"POST", "/post", [], "a=1"⟩ :=
  ⟨(Get_Post_eq_If Globals.initial Globals.initial (Handler.app "h")
      ResponseWriter.fresh ⟨"GET", "/get", [], ""⟩).2.2.2.2.1 rfl,
   (Get_Post_eq_If Globals.initial Globals.initial (Handler.app "h")
      ResponseWriter.fresh ⟨"POST", "/post", [], "a=1"⟩).2.2.2.2.2 rfl⟩

/-! ## C4: `Get`, `Post` and a later assignment to `Invalid` -/

/-- C4, the code at a concrete input: `d = Get(h)` and `e = Post(h)` are built
while `Invalid` holds its initial value, then `Invalid = I2` is executed.  On a
DELETE request `d` and `e` call the handler `Invalid` held when they were built,
which is not `I2`, while the inlined handlers of `ExampleGet` and `ExamplePost`
call `I2`. -/
theorem Get_Post_keep_Invalid_of_construction :
    (Get Globals.initial (Handler.app "h")).ServeHTTP
        (Globals.initial.setInvalid (Handler.app "I2"))
        ResponseWriter.fresh ⟨"DELETE", "/get", [], ""⟩
      = Step.invoke Handler.invalidFunc ResponseWriter.fresh ⟨"DELETE", "/get", [], ""⟩ ∧
    (Post Globals.initial (Handler.app "h")).ServeHTTP
        (Globals.initial.setInvalid (Handler.app "I2"))
        ResponseWriter.fresh ⟨"DELETE", "/post", [], ""⟩
      = Step.invoke Handler.invalidFunc ResponseWriter.fresh ⟨"DELETE", "/post", [], ""⟩ ∧
    ExampleGet_inlined (Handler.app "h") (Globals.initial.setInvalid (Handler.app "I2"))
        ResponseWriter.fresh ⟨"DELETE", "/get", [], ""⟩
      = Step.invoke (Handler.app "I2") ResponseWriter.fresh ⟨"DELETE", "/get", [], ""⟩ ∧
    ExamplePost_inlined (Handler.app "h") (Globals.initial.setInvalid (Handler.app "I2"))
        ResponseWriter.fresh ⟨"DELETE", "/post", [], ""⟩
      = Step.invoke (Handler.app "I2") ResponseWriter.fresh ⟨"DELETE", "/post", [], ""⟩ ∧
    (Get Globals.initial (Handler.app "h")).ServeHTTP
        (Globals.initial.setInvalid (Handler.app "I2"))
        ResponseWriter.fresh ⟨"DELETE", "/get", [], ""⟩
      ≠ Step.invoke (Handler.app "I2") ResponseWriter.fresh ⟨"DELETE", "/get", [], ""⟩ ∧
    (Post Globals.initial (Handler.app "h")).ServeHTTP
        (Globals.initial.setInvalid (Handler.app "I2"))
        ResponseWriter.fresh ⟨"DELETE", "/post", [], ""⟩
      ≠ Step.invoke (Handler.app "I2") ResponseWriter.fresh ⟨"DELETE", "/post", [], ""⟩ := by
  refine ⟨?_, ?_, ?_, ?_, ?_, ?_⟩ <;>
    simp [Get, Post, If, Handler.ServeHTTP, Globals.initial, Globals.setInvalid,
      ExampleGet_inlined, ExamplePost_inlined]

/-! ## C5: `Switch` and a later assignment to `Invalid` -/

/-- C5: for a table `T` without the key "*" and a request whose method is not
a key of `T`, `T.ServeHTTP` calls the handler that `Invalid` holds when the
request is served: after `Invalid = I2` it calls `I2`, whatever `Invalid` held
before. -/
theorem Switch_reads_Invalid_when_serving (g : Globals) (I2 : Handler) (T : Switch)
    (w : ResponseWriter) (r : Request) (hstar : "*" ∉ T.keys) (hr : r.Method ∉ T.keys) :
    Switch.ServeHTTP g T w r = Step.invoke g.Invalid w r ∧
    Switch.ServeHTTP (g.setInvalid I2) T w r = Step.invoke I2 w r :=
  ⟨Switch.serve_invalid g T w r hr hstar, Switch.serve_invalid (g.setInvalid I2) T w r hr hstar⟩

/-- C5 at a concrete input: `Switch{"GET": g, "POST": p}`, `Invalid = I2`
executed after the table was built, a DELETE request. -/
theorem Switch_reads_Invalid_when_serving_witness :
    "*" ∉ Switch.keys [("GET", Handler.app "g"), ("POST", Handler.app "p")] ∧
    "DELETE" ∉ Switch.keys [("GET", Handler.app "g"), ("POST", Handler.app "p")] ∧
    Switch.ServeHTTP (Globals.initial.setInvalid (Handler.app "I2"))
        [("GET", Handler.app "g"), ("POST", Handler.app "p")]
        ResponseWriter.fresh ⟨"DELETE", "/", [], ""⟩
      = Step.invoke (Handler.app "I2") ResponseWriter.fresh ⟨"DELETE", "/", [], ""⟩ :=
  ⟨by decide, by decide,
   (Switch_reads_Invalid_when_serving Globals.initial (Handler.app "I2")
      [("GET", Handler.app "g"), ("POST", Handler.app "p")]
      ResponseWriter.fresh ⟨"DELETE", "/", [], ""⟩ (by decide) (by decide)).2⟩

/-! ## C6: the initial value of `Invalid` -/

/-- C6 as stated fails: served on a fresh response writer, the initial value of
`Invalid` does not leave a body that is exactly "Invalid method". -/
theorem Invalid_initial_body_not_exact :
    ¬ ∃ w1 : ResponseWriter,
      Globals.initial.Invalid.ServeHTTP Globals.initial ResponseWriter.fresh
          ⟨"DELETE", "/", [], ""⟩ = Step.reply w1 ∧
      w1.status = 405 ∧ w1.body = "Invalid method" := by
  rintro ⟨w1, h1, _, h3⟩
  simp only [Globals.initial, Handler.ServeHTTP, Step.reply.injEq] at h1
  subst h1
  revert h3
  decide

/-- C6 amended: on a response writer whose status line has not been sent, the
initial value of `Invalid` answers every request, whatever its method, with
status 405 and appends to the body the text "Invalid method" followed by a
newline; it calls no other handler and does not read the global `Invalid`. -/
theorem Invalid_initial_replies_405 (g : Globals) (w : ResponseWriter) (r : Request)
    (hw : w.wroteHeader = false) :
    Globals.initial.Invalid.ServeHTTP g w r
      = Step.reply { wroteHeader := true, status := 405, body := w.body ++ "Invalid method\n" } := by
  simp [Globals.initial, Handler.ServeHTTP, httpError, ResponseWriter.WriteHeader,
    ResponseWriter.Write, hw]

/-- C6 amended, at a concrete input: a lower case "get" request on a fresh
response writer. -/
theorem Invalid_initial_replies_405_witness :
    ResponseWriter.fresh.wroteHeader = false ∧
    Globals.initial.Invalid.ServeHTTP Globals.initial ResponseWriter.fresh
        ⟨"get", "/", [], ""⟩
      = Step.reply { wroteHeader := true, status := 405,
                     body := ResponseWriter.fresh.body ++ "Invalid method\n" } ∧
    ResponseWriter.fresh.body ++ "Invalid method\n" = "Invalid method\n" :=
  ⟨rfl, Invalid_initial_replies_405 Globals.initial ResponseWriter.fresh
      ⟨"get", "/", [], ""⟩ rfl, by decide⟩

/-! ## C7: case sensitivity -/

theorem toLower_eq_star (c : Char) (h : c.toLower = '*') : c = '*' := by
  unfold Char.toLower at h
  simp only at h
  split at h
  · rename_i hc
    exfalso
    have h2 : (Char.ofNat (c.toNat + 32)).toNat = 42 := by rw [h]; rfl
    have h3 : (c.toNat + 32).isValidChar := by
      left; omega
    rw [Char.ofNat, dif_pos h3] at h2
    simp [Char.ofNatAux, Char.toNat] at h2
    simp [UInt32.toNat] at h2
    simp only [Char.toNat, UInt32.toNat] at hc
    omega
  · exact h

theorem foldCase_eq_star (m : String) (h : foldCase m = foldCase "*") : m = "*" := by
  have h1 : m.data.map Char.toLower = ['*'] := h
  obtain ⟨l⟩ := m
  cases l with
  | nil => simp at h1
  | cons c t =>
    cases t with
    | nil =>
      simp only [List.map_cons, List.map_nil, List.cons.injEq, and_true] at h1
      rw [toLower_eq_star c h1]
    | cons d t => simp at h1

/-- C7: when the request method `m` differs from `M` but equals it after case
folding, `If(M, Then, Else)` calls `Else` (so not `Then`, unless the two are
one handler), and a `Switch` whose only key is `M` does not select its entry:
it calls the global `Invalid` (so not its entry `h`, unless `Invalid` holds
`h`). -/
theorem method_match_case_sensitive (g : Globals) (M m : String) (Then Else h : Handler)
    (w : ResponseWriter) (r : Request)
    (hne : m ≠ M) (hfold : foldCase m = foldCase M) (hr : r.Method = m) :
    (If M Then Else).ServeHTTP g w r = Step.invoke Else w r ∧
    (Then ≠ Else → (If M Then Else).ServeHTTP g w r ≠ Step.invoke Then w r) ∧
    Switch.ServeHTTP g [(M, h)] w r = Step.invoke g.Invalid w r ∧
    (h ≠ g.Invalid → Switch.ServeHTTP g [(M, h)] w r ≠ Step.invoke h w r) := by
  have hrM : r.Method ≠ M := by rw [hr]; exact hne
  have hstar : M ≠ "*" := by
    intro hM
    apply hne
    rw [hM] at hfold ⊢
    exact foldCase_eq_star m hfold
  have hIf : (If M Then Else).ServeHTTP g w r = Step.invoke Else w r := by
    simp [If, Handler.ServeHTTP, hrM]
  have hSw : Switch.ServeHTTP g [(M, h)] w r = Step.invoke g.Invalid w r := by
    apply Switch.serve_invalid
    · simpa [Switch.keys] using hrM
    · simpa [Switch.keys] using hstar.symm
  refine ⟨hIf, fun hTE => ?_, hSw, fun hh => ?_⟩
  · rw [hIf]
    intro hc
    injection hc with h1
    exact hTE h1.symm
  · rw [hSw]
    intro hc
    injection hc with h1
    exact hh h1.symm

/-- C7 at concrete inputs: `M` = "GET" and the request method "get";
`If("GET", h, Invalid)` and `Switch{"GET": h}` both call `Invalid`, not `h`. -/
theorem method_match_case_sensitive_witness :
    "get" ≠ "GET" ∧ foldCase "get" = foldCase "GET" ∧
    (If "GET" (Handler.app "h") Handler.invalidFunc).ServeHTTP Globals.initial
        ResponseWriter.fresh ⟨"get", "/", [], ""⟩
      = Step.invoke Handler.invalidFunc ResponseWriter.fresh ⟨"get", "/", [], ""⟩ ∧
    Switch.ServeHTTP Globals.initial [("GET", Handler.app "h")]
        ResponseWriter.fresh ⟨"get", "/", [], ""⟩
      = Step.invoke Handler.invalidFunc ResponseWriter.fresh ⟨"get", "/", [], ""⟩ :=
  ⟨by decide, by decide,
   (method_match_case_sensitive Globals.initial "GET" "get" (Handler.app "h")
      Handler.invalidFunc (Handler.app "h") ResponseWriter.fresh ⟨"get", "/", [], ""⟩
      (by decide) (by decide) rfl).1,
   (method_match_case_sensitive Globals.initial "GET" "get" (Handler.app "h")
      Handler.invalidFunc (Handler.app "h") ResponseWriter.fresh ⟨"get", "/", [], ""⟩
      (by decide) (by decide) rfl).2.2.1⟩

/-! ## C8: a `Switch` with a wildcard entry and the switch statement -/

/-- C8: `Switch{"GET": g, "POST": p, "PATCH": q, "*": c}` does on every request
what the inlined switch statement of `ExampleSwitch` does: it calls `g` on
"GET", `p` on "POST", `q` on "PATCH" and `c` on every other method.  The call
is the same under every value of the global `Invalid`, which is never read. -/
theorem ExampleSwitch_eq_inlined (G G1 : Globals) (g p q c : Handler)
    (w : ResponseWriter) (r : Request) :
    Switch.ServeHTTP G (ExampleSwitch_table g p q c) w r = ExampleSwitch_inlined g p q c w r ∧
    (r.Method = "GET" →
      Switch.ServeHTTP G (ExampleSwitch_table g p q c) w r = Step.invoke g w r) ∧
    (r.Method = "POST" →
      Switch.ServeHTTP G (ExampleSwitch_table g p q c) w r = Step.invoke p w r) ∧
    (r.Method = "PATCH" →
      Switch.ServeHTTP G (ExampleSwitch_table g p q c) w r = Step.invoke q w r) ∧
    (r.Method ≠ "GET" → r.Method ≠ "POST" → r.Method ≠ "PATCH" →
      Switch.ServeHTTP G (ExampleSwitch_table g p q c) w r = Step.invoke c w r) ∧
    Switch.ServeHTTP G (ExampleSwitch_table g p q c) w r
      = Switch.ServeHTTP G1 (ExampleSwitch_table g p q c) w r := by
  have key : ∀ G0 : Globals,
      Switch.ServeHTTP G0 (ExampleSwitch_table g p q c) w r
        = ExampleSwitch_inlined g p q c w r := by
    intro G0
    by_cases h1 : r.Method = "GET"
    · simp [Switch.ServeHTTP, ExampleSwitch_table, ExampleSwitch_inlined, Switch.index, h1]
    · by_cases h2 : r.Method = "POST"
      · simp [Switch.ServeHTTP, ExampleSwitch_table, ExampleSwitch_inlined, Switch.index, h2]
      · by_cases h3 : r.Method = "PATCH"
        · simp [Switch.ServeHTTP, ExampleSwitch_table, ExampleSwitch_inlined, Switch.index, h3]
        · have e1 : ¬ "GET" = r.Method := fun e => h1 e.symm
          have e2 : ¬ "POST" = r.Method := fun e => h2 e.symm
          have e3 : ¬ "PATCH" = r.Method := fun e => h3 e.symm
          by_cases h4 : "*" = r.Method
          · simp [Switch.ServeHTTP, ExampleSwitch_table, ExampleSwitch_inlined, Switch.index,
              h1, h2, h3, e1, e2, e3, h4]
          · simp [Switch.ServeHTTP, ExampleSwitch_table, ExampleSwitch_inlined, Switch.index,
              h1, h2, h3, e1, e2, e3, h4]
  refine ⟨key G, fun h => ?_, fun h => ?_, fun h => ?_, fun h1 h2 h3 => ?_, ?_⟩
  · rw [key G]; simp [ExampleSwitch_inlined, h]
  · rw [key G]; simp [ExampleSwitch_inlined, h]
  · rw [key G]; simp [ExampleSwitch_inlined, h]
  · rw [key G]; simp [ExampleSwitch_inlined, h1, h2, h3]
  · rw [key G, key G1]

/-- C8 at concrete inputs: a PATCH request reaches `HandlePatch`, a DELETE
request and a request whose method is "*" reach `CustomInvalid`. -/
theorem ExampleSwitch_eq_inlined_witness :
    Switch.ServeHTTP Globals.initial
        (ExampleSwitch_table (Handler.app "HandleGet") (Handler.app "HandlePost")
          (Handler.app "HandlePatch") (Handler.app "CustomInvalid"))
        ResponseWriter.fresh ⟨"PATCH", "/multiple-methods", [], ""⟩
      = Step.invoke (Handler.app "HandlePatch") ResponseWriter.fresh
          ⟨"PATCH", "/multiple-methods", [], ""⟩ ∧
    Switch.ServeHTTP Globals.initial
        (ExampleSwitch_table (Handler.app "HandleGet") (Handler.app "HandlePost")
          (Handler.app "HandlePatch") (Handler.app "CustomInvalid"))
        ResponseWriter.fresh ⟨"DELETE", "/multiple-methods", [], ""⟩
      = Step.invoke (Handler.app "CustomInvalid") ResponseWriter.fresh
          ⟨"DELETE", "/multiple-methods", [], ""⟩ ∧
    Switch.ServeHTTP Globals.initial
        (ExampleSwitch_table (Handler.app "HandleGet") (Handler.app "HandlePost")
          (Handler.app "HandlePatch") (Handler.app "CustomInvalid"))
        ResponseWriter.fresh ⟨"*", "/multiple-methods", [], ""⟩
      = Step.invoke (Handler.app "CustomInvalid") ResponseWriter.fresh
          ⟨"*", "/multiple-methods", [], ""⟩ :=
  ⟨(ExampleSwitch_eq_inlined Globals.initial Globals.initial (Handler.app "HandleGet")
      (Handler.app "HandlePost") (Handler.app "HandlePatch") (Handler.app "CustomInvalid")
      ResponseWriter.fresh ⟨"PATCH", "/multiple-methods", [], ""⟩).2.2.2.1 rfl,
   (ExampleSwitch_eq_inlined Globals.initial Globals.initial (Handler.app "HandleGet")
      (Handler.app "HandlePost") (Handler.app "HandlePatch") (Handler.app "CustomInvalid")
      ResponseWriter.fresh ⟨"DELETE", "/multiple-methods", [], ""⟩).2.2.2.2.1
      (by decide) (by decide) (by decide),
   (ExampleSwitch_eq_inlined Globals.initial Globals.initial (Handler.app "HandleGet")
      (Handler.app "HandlePost") (Handler.app "HandlePatch") (Handler.app "CustomInvalid")
      ResponseWriter.fresh ⟨"*", "/multiple-methods", [], ""⟩).2.2.2.2.1
      (by decide) (by decide) (by decide)⟩

/-! ## C9: an explicit fallback shadows `Invalid` -/

/-- C9: the call made by `If(M, Then, Else)` is the same under any two values
of the global `Invalid`, and it is a call of `Then` or of `Else`; for a table
with the key "*" the call made by `Switch.ServeHTTP` is the same under any two
values of `Invalid`, and it is a call of the handler of an entry of the
table. -/
theorem explicit_fallback_shadows_Invalid (g1 g2 : Globals) (M : String)
    (Then Else : Handler) (T : Switch) (w : ResponseWriter) (r : Request) :
    (If M Then Else).ServeHTTP g1 w r = (If M Then Else).ServeHTTP g2 w r ∧
    ((If M Then Else).ServeHTTP g1 w r = Step.invoke Then w r ∨
      (If M Then Else).ServeHTTP g1 w r = Step.invoke Else w r) ∧
    ("*" ∈ T.keys →
      Switch.ServeHTTP g1 T w r = Switch.ServeHTTP g2 T w r ∧
      ∃ k h, (k, h) ∈ T ∧ Switch.ServeHTTP g1 T w r = Step.invoke h w r) := by
  refine ⟨rfl, ?_, fun hstar => ?_⟩
  · by_cases hm : r.Method = M
    · left; simp [If, Handler.ServeHTTP, hm]
    · right; simp [If, Handler.ServeHTTP, hm]
  · by_cases hk : r.Method ∈ T.keys
    · refine ⟨?_, r.Method, (T.index r.Method).1, Switch.index_mem T r.Method hk,
        Switch.serve_exact g1 T w r hk⟩
      rw [Switch.serve_exact g1 T w r hk, Switch.serve_exact g2 T w r hk]
    · refine ⟨?_, "*", (T.index "*").1, Switch.index_mem T "*" hstar,
        Switch.serve_wildcard g1 T w r hk hstar⟩
      rw [Switch.serve_wildcard g1 T w r hk hstar, Switch.serve_wildcard g2 T w r hk hstar]

/-- C9 at a concrete input: `Switch{"GET": g, "*": other}` on a DELETE request
makes the same call whether `Invalid` holds its initial value or `I2`. -/
theorem explicit_fallback_shadows_Invalid_witness :
    "*" ∈ Switch.keys [("GET", Handler.app "g"), ("*", Handler.app "other")] ∧
    Switch.ServeHTTP Globals.initial [("GET", Handler.app "g"), ("*", Handler.app "other")]
        ResponseWriter.fresh ⟨"DELETE", "/", [], ""⟩
      = Switch.ServeHTTP (Globals.initial.setInvalid (Handler.app "I2"))
          [("GET", Handler.app "g"), ("*", Handler.app "other")]
          ResponseWriter.fresh ⟨"DELETE", "/", [], ""⟩ :=
  ⟨by decide,
   ((explicit_fallback_shadows_Invalid Globals.initial
      (Globals.initial.setInvalid (Handler.app "I2")) "PATCH" (Handler.app "patchH")
      (Handler.app "customInvalid") [("GET", Handler.app "g"), ("*", Handler.app "other")]
      ResponseWriter.fresh ⟨"DELETE", "/", [], ""⟩).2.2 (by decide)).1⟩

/-! ## C10: the order of the entries -/

/-- C10: two tables whose entry lists have one entry a key and are permutations
of each other make the same call on every request, under every value of
`Invalid`. -/
theorem Switch_entry_order_irrelevant (g : Globals) (T1 T2 : Switch)
    (w : ResponseWriter) (r : Request)
    (hnd : T1.keys.Nodup) (hp : T1.Perm T2) :
    Switch.ServeHTTP g T1 w r = Switch.ServeHTTP g T2 w r := by
  simp only [Switch.ServeHTTP, Switch.index_perm T1 T2 r.Method hnd hp,
    Switch.index_perm T1 T2 "*" hnd hp]

/-- C10 at a concrete input: `{"GET": g, "*": other, "POST": p}` and
`{"*": other, "POST": p, "GET": g}` on a DELETE request. -/
theorem Switch_entry_order_irrelevant_witness :
    (Switch.keys [("GET", Handler.app "g"), ("*", Handler.app "other"),
      ("POST", Handler.app "p")]).Nodup ∧
    Switch.ServeHTTP Globals.initial
        [("GET", Handler.app "g"), ("*", Handler.app "other"), ("POST", Handler.app "p")]
        ResponseWriter.fresh ⟨"DELETE", "/", [], ""⟩
      = Switch.ServeHTTP Globals.initial
          [("*", Handler.app "other"), ("POST", Handler.app "p"), ("GET", Handler.app "g")]
          ResponseWriter.fresh ⟨"DELETE", "/", [], ""⟩ :=
  ⟨by decide,
   Switch_entry_order_irrelevant Globals.initial
     [("GET", Handler.app "g"), ("*", Handler.app "other"), ("POST", Handler.app "p")]
     [("*", Handler.app "other"), ("POST", Handler.app "p"), ("GET", Handler.app "g")]
     ResponseWriter.fresh ⟨"DELETE", "/", [], ""⟩ (by decide)
     ((List.Perm.swap _ _ _).trans (List.Perm.cons _ (List.Perm.swap _ _ _)))⟩

/-! ## C11: assignment to and deletion from the table -/

theorem Switch.index_store_self (s : Switch) (key : String) (h : Handler) :
    (s.store key h).index key = (h, true) := by
  induction s with
  | nil => simp [Switch.store, Switch.index]
  | cons e rest ih =>
    obtain ⟨k, v⟩ := e
    by_cases hk : k = key
    · simp [Switch.store, Switch.index, hk]
    · simp [Switch.store, Switch.index, hk, ih]

theorem Switch.index_store_other (s : Switch) (key m : String) (h : Handler)
    (hm : m ≠ key) : (s.store key h).index m = s.index m := by
  have hm1 : ¬ key = m := fun e => hm e.symm
  induction s with
  | nil => simp [Switch.store, Switch.index, hm1]
  | cons e rest ih =>
    obtain ⟨k, v⟩ := e
    by_cases hk : k = key
    · have hkm : ¬ k = m := by rw [hk]; exact hm1
      simp [Switch.store, Switch.index, hk, hm1]
    · by_cases hkm : k = m
      · subst hkm
        simp only [Switch.store, hk, if_false, Switch.index, if_true]
      · simp only [Switch.store, hk, if_false, Switch.index, hkm]
        exact ih

theorem Switch.delete_cons_eq (k : String) (v : Handler) (rest : Switch) (key : String)
    (hk : k = key) : Switch.delete ((k, v) :: rest) key = Switch.delete rest key := by
  simp [Switch.delete, List.filter_cons, hk]

theorem Switch.delete_cons_ne (k : String) (v : Handler) (rest : Switch) (key : String)
    (hk : ¬ k = key) :
    Switch.delete ((k, v) :: rest) key = (k, v) :: Switch.delete rest key := by
  simp [Switch.delete, List.filter_cons, hk]

theorem Switch.index_delete_self (s : Switch) (key : String) :
    (s.delete key).index key = (Handler.nil, false) := by
  apply Switch.index_of_not_mem
  simp [Switch.delete, Switch.keys]

theorem Switch.index_delete_other (s : Switch) (key m : String) (hm : m ≠ key) :
    (s.delete key).index m = s.index m := by
  induction s with
  | nil => rfl
  | cons e rest ih =>
    obtain ⟨k, v⟩ := e
    by_cases hk : k = key
    · have hkm : ¬ k = m := by rw [hk]; exact fun e => hm e.symm
      rw [Switch.delete_cons_eq k v rest key hk, ih]
      simp only [Switch.index, hkm, if_false]
    · rw [Switch.delete_cons_ne k v rest key hk]
      by_cases hkm : k = m
      · simp only [Switch.index, hkm, if_true]
      · simp only [Switch.index, hkm, if_false]
        exact ih

theorem Switch.serve_congr (g : Globals) (s t : Switch) (w : ResponseWriter) (r : Request)
    (h1 : s.index r.Method = t.index r.Method) (h2 : s.index "*" = t.index "*") :
    Switch.ServeHTTP g s w r = Switch.ServeHTTP g t w r := by
  simp only [Switch.ServeHTTP, h1, h2]

theorem Switch.serve_congr_exact (g : Globals) (s t : Switch) (w : ResponseWriter)
    (r : Request) (hk : r.Method ∈ t.keys) (h1 : s.index r.Method = t.index r.Method) :
    Switch.ServeHTTP g s w r = Switch.ServeHTTP g t w r := by
  have hk1 : r.Method ∈ s.keys := by
    rw [← Switch.index_snd_iff, h1, Switch.index_snd_iff]
    exact hk
  rw [Switch.serve_exact g s w r hk1, Switch.serve_exact g t w r hk, h1]

/-- C11: the table is consulted as it is when the request is served.  After
`T[k] = h` a request with method `k` calls `h`.  After `delete(T, k)` a request
with method `k` calls the entry under "*" when `k` is not "*" and `T` has that
entry, and the global `Invalid` otherwise.  A request whose method is another
key of `T`, or any other method when `k` is not "*", is dispatched as before
the assignment or deletion. -/
theorem Switch_mutation_observable (g : Globals) (T : Switch) (k : String) (h : Handler)
    (w : ResponseWriter) (r : Request) :
    (r.Method = k → Switch.ServeHTTP g (T.store k h) w r = Step.invoke h w r) ∧
    (r.Method = k → k ≠ "*" → "*" ∈ T.keys →
      Switch.ServeHTTP g (T.delete k) w r = Step.invoke (T.index "*").1 w r) ∧
    (r.Method = k → (k = "*" ∨ "*" ∉ T.keys) →
      Switch.ServeHTTP g (T.delete k) w r = Step.invoke g.Invalid w r) ∧
    (r.Method ≠ k → r.Method ∈ T.keys →
      Switch.ServeHTTP g (T.store k h) w r = Switch.ServeHTTP g T w r ∧
      Switch.ServeHTTP g (T.delete k) w r = Switch.ServeHTTP g T w r) ∧
    (r.Method ≠ k → k ≠ "*" →
      Switch.ServeHTTP g (T.store k h) w r = Switch.ServeHTTP g T w r ∧
      Switch.ServeHTTP g (T.delete k) w r = Switch.ServeHTTP g T w r) := by
  refine ⟨fun hr => ?_, fun hr hk hs => ?_, fun hr hc => ?_, fun hr hm => ?_,
    fun hr hk => ?_⟩
  · have hmem : r.Method ∈ (T.store k h).keys := by
      rw [← Switch.index_snd_iff, hr, Switch.index_store_self]
    rw [Switch.serve_exact g _ w r hmem, hr, Switch.index_store_self]
  · have hnot : r.Method ∉ (T.delete k).keys := by
      rw [← Switch.index_snd_iff, hr, Switch.index_delete_self]
      exact Bool.false_ne_true
    have hstar : "*" ∈ (T.delete k).keys := by
      rw [← Switch.index_snd_iff, Switch.index_delete_other T k "*" (Ne.symm hk),
        Switch.index_snd_iff]
      exact hs
    rw [Switch.serve_wildcard g _ w r hnot hstar,
      Switch.index_delete_other T k "*" (Ne.symm hk)]
  · have hnot : r.Method ∉ (T.delete k).keys := by
      rw [← Switch.index_snd_iff, hr, Switch.index_delete_self]
      exact Bool.false_ne_true
    have hstar : "*" ∉ (T.delete k).keys := by
      rw [← Switch.index_snd_iff]
      by_cases hk : k = "*"
      · rw [← hk, Switch.index_delete_self]
        exact Bool.false_ne_true
      · rw [Switch.index_delete_other T k "*" (Ne.symm hk), Switch.index_snd_iff]
        rcases hc with hc | hc
        · exact absurd hc hk
        · exact hc
    exact Switch.serve_invalid g _ w r hnot hstar
  · exact ⟨Switch.serve_congr_exact g _ T w r hm (Switch.index_store_other T k r.Method h hr),
      Switch.serve_congr_exact g _ T w r hm (Switch.index_delete_other T k r.Method hr)⟩
  · exact ⟨Switch.serve_congr g _ T w r (Switch.index_store_other T k r.Method h hr)
        (Switch.index_store_other T k "*" h (Ne.symm hk)),
      Switch.serve_congr g _ T w r (Switch.index_delete_other T k r.Method hr)
        (Switch.index_delete_other T k "*" (Ne.symm hk))⟩

/-- C11 at concrete inputs, on `T = Switch{"GET": g, "*": other}`: after
`T["PUT"] = h` a PUT request calls `h`; after `delete(T, "GET")` a GET request
calls `other`; after `delete(T, "*")` a request with method "*" calls
`Invalid`, and a GET request still calls `g`. -/
theorem Switch_mutation_observable_witness :
    Switch.ServeHTTP Globals.initial
        (Switch.store [("GET", Handler.app "g"), ("*", Handler.app "other")] "PUT"
          (Handler.app "h"))
        ResponseWriter.fresh ⟨"PUT", "/", [], ""⟩
      = Step.invoke (Handler.app "h") ResponseWriter.fresh ⟨"PUT", "/", [], ""⟩ ∧
    Switch.ServeHTTP Globals.initial
        (Switch.delete [("GET", Handler.app "g"), ("*", Handler.app "other")] "GET")
        ResponseWriter.fresh ⟨"GET", "/", [], ""⟩
      = Step.invoke (Handler.app "other") ResponseWriter.fresh ⟨"GET", "/", [], ""⟩ ∧
    Switch.ServeHTTP Globals.initial
        (Switch.delete [("GET", Handler.app "g"), ("*", Handler.app "other")] "*")
        ResponseWriter.fresh ⟨"*", "/", [], ""⟩
      = Step.invoke Handler.invalidFunc ResponseWriter.fresh ⟨"*", "/", [], ""⟩ ∧
    Switch.ServeHTTP Globals.initial
        (Switch.delete [("GET", Handler.app "g"), ("*", Handler.app "other")] "*")
        ResponseWriter.fresh ⟨"GET", "/", [], ""⟩
      = Switch.ServeHTTP Globals.initial
          [("GET", Handler.app "g"), ("*", Handler.app "other")]
          ResponseWriter.fresh ⟨"GET", "/", [], ""⟩ :=
  ⟨(Switch_mutation_observable Globals.initial
      [("GET", Handler.app "g"), ("*", Handler.app "other")] "PUT" (Handler.app "h")
      ResponseWriter.fresh ⟨"PUT", "/", [], ""⟩).1 rfl,
   (Switch_mutation_observable Globals.initial
      [("GET", Handler.app "g"), ("*", Handler.app "other")] "GET" (Handler.app "h")
      ResponseWriter.fresh ⟨"GET", "/", [], ""⟩).2.1 rfl (by decide) (by decide),
   (Switch_mutation_observable Globals.initial
      [("GET", Handler.app "g"), ("*", Handler.app "other")] "*" (Handler.app "h")
      ResponseWriter.fresh ⟨"*", "/", [], ""⟩).2.2.1 rfl (Or.inl rfl),
   ((Switch_mutation_observable Globals.initial
      [("GET", Handler.app "g"), ("*", Handler.app "other")] "*" (Handler.app "h")
      ResponseWriter.fresh ⟨"GET", "/", [], ""⟩).2.2.2.1 (by decide) (by decide)).2⟩

/-! ## C12: one call, on the same response writer and request -/

theorem Switch.serve_is_invoke (g : Globals) (s : Switch) (w : ResponseWriter) (r : Request) :
    ∃ h, Switch.ServeHTTP g s w r = Step.invoke h w r := by
  by_cases hk : r.Method ∈ s.keys
  · exact ⟨_, Switch.serve_exact g s w r hk⟩
  · by_cases hstar : "*" ∈ s.keys
    · exact ⟨_, Switch.serve_wildcard g s w r hk hstar⟩
    · exact ⟨_, Switch.serve_invalid g s w r hk hstar⟩

/-- C12: serving `If(M, Then, Else)` or a `Switch` is one call
`h.ServeHTTP(w, r)` of one handler, on the response writer and request the
dispatcher was given, and nothing else; so serving the dispatcher to the end
gives what serving the chosen handler on `(w, r)` gives, one call later, from
the same package variables and for any behaviour of the application
handlers. -/
theorem dispatcher_delegates_once (env : AppEnv) (n : Nat) (g : Globals) (M : String)
    (Then Else : Handler) (T : Switch) (w : ResponseWriter) (r : Request) :
    (If M Then Else).ServeHTTP g w r
      = Step.invoke (if r.Method = M then Then else Else) w r ∧
    Handler.run env (n + 1) g (If M Then Else) w r
      = Handler.run env n g (if r.Method = M then Then else Else) w r ∧
    (∃ h, Switch.ServeHTTP g T w r = Step.invoke h w r) ∧
    (∀ h, Switch.ServeHTTP g T w r = Step.invoke h w r →
      (Handler.switch T).ServeHTTP g w r = Step.invoke h w r ∧
      Handler.run env (n + 1) g (Handler.switch T) w r = Handler.run env n g h w r) := by
  have hIf : (If M Then Else).ServeHTTP g w r
      = Step.invoke (if r.Method = M then Then else Else) w r := by
    by_cases hm : r.Method = M
    · simp [If, Handler.ServeHTTP, hm]
    · simp [If, Handler.ServeHTTP, hm]
  refine ⟨hIf, ?_, Switch.serve_is_invoke g T w r, fun h hs => ⟨hs, ?_⟩⟩
  · simp only [Handler.run, hIf]
  · have hs1 : (Handler.switch T).ServeHTTP g w r = Step.invoke h w r := hs
    simp only [Handler.run, hs1]

/-- C12 at a concrete input: with an application handler `patchH` that sends
status 200 and the body "ok", serving `If("PATCH", patchH, customInvalid)` on a
PATCH request ends as `patchH` ends on the same response writer and request. -/
theorem dispatcher_delegates_once_witness :
    Handler.run (fun _ w _ g => Outcome.done ((w.WriteHeader 200).Write "ok") g) 2
        Globals.initial (If "PATCH" (Handler.app "patchH") (Handler.app "customInvalid"))
        ResponseWriter.fresh ⟨"PATCH", "/patch", [], ""⟩
      = some (Outcome.done ((ResponseWriter.fresh.WriteHeader 200).Write "ok")
          Globals.initial) :=
  (dispatcher_delegates_once (fun _ w _ g => Outcome.done ((w.WriteHeader 200).Write "ok") g) 1
    Globals.initial "PATCH" (Handler.app "patchH") (Handler.app "customInvalid") []
    ResponseWriter.fresh ⟨"PATCH", "/patch", [], ""⟩).2.1

/-! ## C13: only the method of the request is looked at -/

/-- C13: two requests with the same method, whatever their other fields and
whatever response writers they come with, reach the same handler, through
`If(M, Then, Else)` and through a `Switch`, under the same value of
`Invalid`. -/
theorem dispatch_depends_on_Method_only (g : Globals) (M : String) (Then Else : Handler)
    (T : Switch) (w1 w2 : ResponseWriter) (r1 r2 : Request)
    (hm : r1.Method = r2.Method) :
    ((If M Then Else).ServeHTTP g w1 r1).callee
      = ((If M Then Else).ServeHTTP g w2 r2).callee ∧
    (Switch.ServeHTTP g T w1 r1).callee = (Switch.ServeHTTP g T w2 r2).callee := by
  constructor
  · by_cases h : r2.Method = M
    · simp [If, Handler.ServeHTTP, Step.callee, hm, h]
    · simp [If, Handler.ServeHTTP, Step.callee, hm, h]
  · simp only [Switch.ServeHTTP, hm, Step.callee]

/-- C13 at a concrete input: a POST request for "/a" with a header and a body
and a POST request for "/b" without, served by `If("POST", a, b)` and by
`Switch{"POST": a, "*": b}`. -/
theorem dispatch_depends_on_Method_only_witness :
    ((If "POST" (Handler.app "a") (Handler.app "b")).ServeHTTP Globals.initial
        ResponseWriter.fresh ⟨"POST", "/a", [("Content-Type", "text/plain")], "x=1"⟩).callee
      = ((If "POST" (Handler.app "a") (Handler.app "b")).ServeHTTP Globals.initial
          ResponseWriter.fresh ⟨"POST", "/b", [], ""⟩).callee ∧
    (Switch.ServeHTTP Globals.initial [("POST", Handler.app "a"), ("*", Handler.app "b")]
        ResponseWriter.fresh ⟨"POST", "/a", [("Content-Type", "text/plain")], "x=1"⟩).callee
      = (Switch.ServeHTTP Globals.initial [("POST", Handler.app "a"), ("*", Handler.app "b")]
          ResponseWriter.fresh ⟨"POST", "/b", [], ""⟩).callee :=
  dispatch_depends_on_Method_only Globals.initial "POST" (Handler.app "a") (Handler.app "b")
    [("POST", Handler.app "a"), ("*", Handler.app "b")] ResponseWriter.fresh
    ResponseWriter.fresh ⟨"POST", "/a", [("Content-Type", "text/plain")], "x=1"⟩
    ⟨"POST", "/b", [], ""⟩ rfl

/-! ## C14: the two forms of dispatch agree -/

/-- C14: for a method `M` other than "*", `Switch{M: a, "*": b}` makes on every
request the call `If(M, a, b)` makes, and `Switch{M: a}` the call
`If(M, a, Invalid)` makes under the same value of `Invalid`; so
`Switch{"GET": a}` agrees with `Get(a)` built under that value. -/
theorem Switch_agrees_with_If (g : Globals) (M : String) (a b : Handler)
    (w : ResponseWriter) (r : Request) (hM : M ≠ "*") :
    Switch.ServeHTTP g [(M, a), ("*", b)] w r = (If M a b).ServeHTTP g w r ∧
    Switch.ServeHTTP g [(M, a)] w r = (If M a g.Invalid).ServeHTTP g w r ∧
    Switch.ServeHTTP g [("GET", a)] w r = (Get g a).ServeHTTP g w r := by
  have one : ∀ N : String, N ≠ "*" →
      Switch.ServeHTTP g [(N, a)] w r = (If N a g.Invalid).ServeHTTP g w r := by
    intro N hN
    by_cases hr : r.Method = N
    · have hk : r.Method ∈ Switch.keys [(N, a)] := by simp [Switch.keys, hr]
      rw [Switch.serve_exact g _ w r hk]
      simp [If, Handler.ServeHTTP, Switch.index, hr]
    · have hk : r.Method ∉ Switch.keys [(N, a)] := by simpa [Switch.keys] using hr
      have hs : "*" ∉ Switch.keys [(N, a)] := by simpa [Switch.keys] using hN.symm
      rw [Switch.serve_invalid g _ w r hk hs]
      simp [If, Handler.ServeHTTP, hr]
  refine ⟨?_, one M hM, one "GET" (by decide)⟩
  by_cases hr : r.Method = M
  · have hk : r.Method ∈ Switch.keys [(M, a), ("*", b)] := by simp [Switch.keys, hr]
    rw [Switch.serve_exact g _ w r hk]
    simp [If, Handler.ServeHTTP, Switch.index, hr]
  · have hMr : ¬ M = r.Method := fun e => hr e.symm
    by_cases hs : r.Method = "*"
    · have hk : r.Method ∈ Switch.keys [(M, a), ("*", b)] := by simp [Switch.keys, hs]
      rw [Switch.serve_exact g _ w r hk]
      have hs1 : "*" = r.Method := hs.symm
      simp [If, Handler.ServeHTTP, Switch.index, hr, hMr, hs1]
    · have hk : r.Method ∉ Switch.keys [(M, a), ("*", b)] := by
        simp [Switch.keys, hr, hs]
      have hstar : "*" ∈ Switch.keys [(M, a), ("*", b)] := by simp [Switch.keys]
      rw [Switch.serve_wildcard g _ w r hk hstar]
      simp [If, Handler.ServeHTTP, Switch.index, hr, hM]

/-- C14 at concrete inputs: `Switch{"PATCH": a, "*": b}` and `If("PATCH", a, b)`
on a DELETE request; `Switch{"GET": a}` and `Get(a)` on a lower case "get"
request. -/
theorem Switch_agrees_with_If_witness :
    "PATCH" ≠ "*" ∧
    Switch.ServeHTTP Globals.initial [("PATCH", Handler.app "a"), ("*", Handler.app "b")]
        ResponseWriter.fresh ⟨"DELETE", "/", [], ""⟩
      = (If "PATCH" (Handler.app "a") (Handler.app "b")).ServeHTTP Globals.initial
          ResponseWriter.fresh ⟨"DELETE", "/", [], ""⟩ ∧
    Switch.ServeHTTP Globals.initial [("GET", Handler.app "a")]
        ResponseWriter.fresh ⟨"get", "/", [], ""⟩
      = (Get Globals.initial (Handler.app "a")).ServeHTTP Globals.initial
          ResponseWriter.fresh ⟨"get", "/", [], ""⟩ :=
  ⟨by decide,
   (Switch_agrees_with_If Globals.initial "PATCH" (Handler.app "a") (Handler.app "b")
      ResponseWriter.fresh ⟨"DELETE", "/", [], ""⟩ (by decide)).1,
   (Switch_agrees_with_If Globals.initial "PATCH" (Handler.app "a") (Handler.app "b")
      ResponseWriter.fresh ⟨"get", "/", [], ""⟩ (by decide)).2.2⟩

/-! ## C15: an entry holding a nil handler -/

/-- C15: the fallback of `Switch.ServeHTTP` goes by the presence of the key.
In a table with one entry a key, when `r.Method` is a key mapped to nil the one
call made is on that nil handler (so on no handler that is not nil, such as a
"*" entry or `Invalid`), and when `r.Method` is no key and "*" is mapped to nil
the call is on that nil handler and not on `Invalid`; the call on nil panics. -/
theorem Switch_nil_entry_selected (env : AppEnv) (n : Nat) (g : Globals) (T : Switch)
    (w : ResponseWriter) (r : Request) (hnd : T.keys.Nodup) :
    ((r.Method, Handler.nil) ∈ T →
      Switch.ServeHTTP g T w r = Step.invoke Handler.nil w r ∧
      (∀ h, h ≠ Handler.nil → Switch.ServeHTTP g T w r ≠ Step.invoke h w r) ∧
      Handler.run env (n + 2) g (Handler.switch T) w r = some Outcome.panicked) ∧
    (r.Method ∉ T.keys → ("*", Handler.nil) ∈ T →
      Switch.ServeHTTP g T w r = Step.invoke Handler.nil w r ∧
      (∀ h, h ≠ Handler.nil → Switch.ServeHTTP g T w r ≠ Step.invoke h w r) ∧
      Handler.run env (n + 2) g (Handler.switch T) w r = some Outcome.panicked) ∧
    Handler.nil.ServeHTTP g w r = Step.nilDeref := by
  have fin : Switch.ServeHTTP g T w r = Step.invoke Handler.nil w r →
      Switch.ServeHTTP g T w r = Step.invoke Handler.nil w r ∧
      (∀ h, h ≠ Handler.nil → Switch.ServeHTTP g T w r ≠ Step.invoke h w r) ∧
      Handler.run env (n + 2) g (Handler.switch T) w r = some Outcome.panicked := by
    intro hs
    refine ⟨hs, fun h hh => ?_, ?_⟩
    · rw [hs]
      intro hc
      injection hc with h1
      exact hh h1.symm
    · have hs1 : (Handler.switch T).ServeHTTP g w r = Step.invoke Handler.nil w r := hs
      rw [Handler.run, hs1]
      rfl
  refine ⟨fun hm => fin ?_, fun hk hm => fin ?_, rfl⟩
  · have hk : r.Method ∈ T.keys := List.mem_map_of_mem Prod.fst hm
    rw [Switch.serve_exact g T w r hk, Switch.index_of_mem_nodup T r.Method _ hnd hm]
  · have hstar : "*" ∈ T.keys := List.mem_map_of_mem Prod.fst hm
    rw [Switch.serve_wildcard g T w r hk hstar, Switch.index_of_mem_nodup T "*" _ hnd hm]

/-- C15 at concrete inputs: `Switch{"GET": nil, "*": other}` on a GET request
and `Switch{"GET": g, "*": nil}` on a DELETE request call the nil handler. -/
theorem Switch_nil_entry_selected_witness :
    (Switch.keys [("GET", Handler.nil), ("*", Handler.app "other")]).Nodup ∧
    Switch.ServeHTTP Globals.initial [("GET", Handler.nil), ("*", Handler.app "other")]
        ResponseWriter.fresh ⟨"GET", "/", [], ""⟩
      = Step.invoke Handler.nil ResponseWriter.fresh ⟨"GET", "/", [], ""⟩ ∧
    Switch.ServeHTTP Globals.initial [("GET", Handler.app "g"), ("*", Handler.nil)]
        ResponseWriter.fresh ⟨"DELETE", "/", [], ""⟩
      = Step.invoke Handler.nil ResponseWriter.fresh ⟨"DELETE", "/", [], ""⟩ :=
  ⟨by decide,
   ((Switch_nil_entry_selected (fun _ w _ g => Outcome.done w g) 0 Globals.initial
      [("GET", Handler.nil), ("*", Handler.app "other")]
      ResponseWriter.fresh ⟨"GET", "/", [], ""⟩ (by decide)).1 (by simp)).1,
   ((Switch_nil_entry_selected (fun _ w _ g => Outcome.done w g) 0 Globals.initial
      [("GET", Handler.app "g"), ("*", Handler.nil)]
      ResponseWriter.fresh ⟨"DELETE", "/", [], ""⟩ (by decide)).2.1 (by decide)
      (by simp)).1⟩

/-! ## C16: a request whose method is "*" -/

/-- C16: on a request whose method is the string "*", a table with the key "*"
finds that entry by the first, exact lookup and calls it; a table without the
key "*" calls the global `Invalid`, whatever other entries it has. -/
theorem star_method_request (g : Globals) (T : Switch) (w : ResponseWriter) (r : Request)
    (hr : r.Method = "*") :
    ("*" ∈ T.keys →
      (T.index r.Method).2 = true ∧
      Switch.ServeHTTP g T w r = Step.invoke (T.index "*").1 w r) ∧
    ("*" ∉ T.keys → Switch.ServeHTTP g T w r = Step.invoke g.Invalid w r) := by
  refine ⟨fun hs => ?_, fun hs => ?_⟩
  · have hk : r.Method ∈ T.keys := by rw [hr]; exact hs
    refine ⟨Switch.index_snd_of_mem T r.Method hk, ?_⟩
    rw [Switch.serve_exact g T w r hk, hr]
  · have hk : r.Method ∉ T.keys := by rw [hr]; exact hs
    exact Switch.serve_invalid g T w r hk hs

/-- C16 at concrete inputs: a request with method "*" served by
`Switch{"GET": g, "*": other}` calls `other`, and served by
`Switch{"GET": g, "POST": p}` calls `Invalid`. -/
theorem star_method_request_witness :
    Switch.ServeHTTP Globals.initial [("GET", Handler.app "g"), ("*", Handler.app "other")]
        ResponseWriter.fresh ⟨"*", "/", [], ""⟩
      = Step.invoke (Handler.app "other") ResponseWriter.fresh ⟨"*", "/", [], ""⟩ ∧
    Switch.ServeHTTP Globals.initial [("GET", Handler.app "g"), ("POST", Handler.app "p")]
        ResponseWriter.fresh ⟨"*", "/", [], ""⟩
      = Step.invoke Handler.invalidFunc ResponseWriter.fresh ⟨"*", "/", [], ""⟩ :=
  ⟨((star_method_request Globals.initial
      [("GET", Handler.app "g"), ("*", Handler.app "other")]
      ResponseWriter.fresh ⟨"*", "/", [], ""⟩ rfl).1 (by decide)).2,
   (star_method_request Globals.initial
      [("GET", Handler.app "g"), ("POST", Handler.app "p")]
      ResponseWriter.fresh ⟨"*", "/", [], ""⟩ rfl).2 (by decide)⟩

end Method
